import Mathlib

/-!
Verification of the DRIVON detailing-site backend (`server.py`): a shallow
embedding of its input sanitizer, payload validator, services cache and the
`POST /api/request` handler pipeline, together with theorems settling the
specified behaviour.  String and byte handling follows CPython semantics on
lists of characters; time is modelled as a natural-number monotonic clock and
every handler invocation is treated as atomic at its clock reading.
-/

namespace Drivon

/-- CPython whitespace predicate: the character set recognised both by
`str.split()` / `str.strip()` and by `\s` in a Unicode `re` pattern
(ASCII whitespace, the file/group/record/unit separators, NEL, NBSP and the
Unicode space characters). -/
def isPySpace (c : Char) : Bool :=
  let n := c.toNat
  decide (n = 32 ∨ (9 ≤ n ∧ n ≤ 13) ∨ (28 ≤ n ∧ n ≤ 31) ∨ n = 0x85 ∨ n = 0xa0 ∨
    n = 0x1680 ∨ (0x2000 ≤ n ∧ n ≤ 0x200a) ∨ n = 0x2028 ∨ n = 0x2029 ∨
    n = 0x202f ∨ n = 0x205f ∨ n = 0x3000)

/-- Python `s.strip()` on a character list: drop leading and trailing
whitespace. -/
def pyStripList (l : List Char) : List Char :=
  ((l.dropWhile isPySpace).reverse.dropWhile isPySpace).reverse

/-- Python `s.strip()` on strings. -/
def pyStrip (s : String) : String :=
  String.mk (pyStripList s.toList)

/-- Python `s.split()` (no separator): the maximal runs of non-whitespace
characters, in order; leading, trailing and repeated whitespace produce no
empty chunks. -/
def pyWords : List Char → List (List Char)
  | [] => []
  | c :: rest =>
    if isPySpace c then pyWords rest
    else
      match rest with
      | [] => [[c]]
      | d :: _ =>
        if isPySpace d then [c] :: pyWords rest
        else
          match pyWords rest with
          | [] => [[c]]
          | w :: ws => (c :: w) :: ws

/-- Python `" ".join(words)` on character lists. -/
def joinWords : List (List Char) → List Char
  | [] => []
  | [w] => w
  | w :: ws => w ++ ' ' :: joinWords ws

/-- A JSON-decoded Python value as seen by the sanitizer: either a string or
some non-string value (number, list, object, null, boolean). -/
inductive PyVal where
  | str (s : String)
  | nonStr
deriving DecidableEq, Repr

/-- Python `payload.get(k)` over the parsed JSON object, modelled as an
association list with distinct keys (a `dict`). -/
def pyGet (payload : List (String × PyVal)) (k : String) : Option PyVal :=
  (payload.find? (fun kv => kv.1 == k)).map (·.2)

/-- `payload` with key `k` removed (for the field-removal experiments). -/
def removeKey (payload : List (String × PyVal)) (k : String) :
    List (String × PyVal) :=
  payload.filter (fun kv => kv.1 != k)

/-- `clean_text` (server.py lines 55-59): non-strings become `""`; strings are
stripped, whitespace-split, re-joined with single spaces and truncated to
`max_len` characters. -/
def clean_text (value : Option PyVal) (maxLen : Nat) : String :=
  match value with
  | some (.str s) =>
    String.mk ((joinWords (pyWords (pyStripList s.toList))).take maxLen)
  | _ => ""

/-- Python `value.replace (with the two-character CRLF pattern, mapped to a
single LF)`: left-to-right, non-overlapping. -/
def replaceCRLF : List Char → List Char
  | [] => []
  | '\r' :: '\n' :: rest => '\n' :: replaceCRLF rest
  | c :: rest => c :: replaceCRLF rest

/-- Python `value.replace` mapping each remaining CR to LF. -/
def replaceCR (l : List Char) : List Char :=
  l.map (fun c => if c = '\r' then '\n' else c)

/-- Python `s.split(sep)` for the single-character separator LF: explicit
separator, so empty chunks are kept and the empty string yields one empty
chunk. -/
def splitOnNL : List Char → List (List Char)
  | [] => [[]]
  | c :: rest =>
    if c = '\n' then [] :: splitOnNL rest
    else
      match splitOnNL rest with
      | [] => [[c]]
      | l :: ls => (c :: l) :: ls

/-- Python `"\n".join(lines)` on character lists. -/
def joinNL : List (List Char) → List Char
  | [] => []
  | [w] => w
  | w :: ws => w ++ '\n' :: joinNL ws

/-- `clean_comment` (server.py lines 62-67): non-strings become `""`; strings
have both line-ending replacements applied, are stripped, split on LF, each
line stripped, empty lines dropped, the rest re-joined with LF and truncated
to `max_len`. -/
def clean_comment (value : Option PyVal) (maxLen : Nat) : String :=
  match value with
  | some (.str s) =>
    let normalized := pyStripList (replaceCR (replaceCRLF s.toList))
    let lines := (splitOnNL normalized).map pyStripList
    String.mk ((joinNL (lines.filter (fun l => l ≠ []))).take maxLen)
  | _ => ""

/-- A character allowed by `PHONE_RE`'s class: ASCII digits, `+`, `(`, `)`,
`-`, or `\s`. -/
def isPhoneChar (c : Char) : Bool :=
  c.isDigit || c == '+' || c == '(' || c == ')' || c == '-' || isPySpace c

/-- `PHONE_RE.fullmatch` (server.py line 22): the whole string consists of
allowed characters and its length is between 6 and 25. -/
def PHONE_RE_fullmatch (s : String) : Bool :=
  s.toList.all isPhoneChar && decide (6 ≤ s.length) && decide (s.length ≤ 25)

/-- `validate_payload` (server.py lines 70-94): clean each field, then check
the required fields in order, returning either the validated record or the
first rejection reason. -/
def validate_payload (payload : List (String × PyVal)) :
    Option (List (String × String)) × Option String :=
  let name := clean_text (pyGet payload "name") 80
  let phone := clean_text (pyGet payload "phone") 40
  let car := clean_text (pyGet payload "car") 120
  let service := clean_text (pyGet payload "service") 120
  let comment := clean_comment (pyGet payload "comment") 600
  if name = "" then (none, some "name_required")
  else if phone = "" then (none, some "phone_required")
  else if ¬ PHONE_RE_fullmatch phone then (none, some "phone_invalid")
  else if car = "" then (none, some "car_required")
  else if service = "" then (none, some "service_required")
  else (some [("name", name), ("phone", phone), ("car", car),
              ("service", service), ("comment", comment)], none)

/-- Python `s.split(",")` on a character list (explicit separator: empty
chunks kept, the empty string yields one empty chunk). -/
def splitOnComma : List Char → List (List Char)
  | [] => [[]]
  | c :: rest =>
    if c = ',' then [] :: splitOnComma rest
    else
      match splitOnComma rest with
      | [] => [[c]]
      | l :: ls => (c :: l) :: ls

/-- `parse_admin_ids` (server.py lines 45-52): split the `ADMIN_IDS`
environment value on commas, strip each part, keep the non-empty ones in
order (duplicates preserved). -/
def parse_admin_ids (raw : String) : List String :=
  (((splitOnComma raw.toList).map String.mk).map pyStrip).filter
    (fun v => v ≠ "")

/-- `normalize_database_url` (server.py lines 148-154): strip, then rewrite
either historical URL scheme spelling to the canonical one. -/
def normalize_database_url (value : String) : String :=
  let database_url := pyStrip value
  if database_url.startsWith "postgres://" then
    "postgresql://" ++ database_url.drop 11
  else if database_url.startsWith "postgresql+asyncpg://" then
    "postgresql://" ++ database_url.drop 21
  else database_url

/-- One projected `services` row as produced by `fetch_active_services`
(server.py lines 170-180). -/
structure ServiceRow where
  id : Int
  name : String
  description : String
  duration_minutes : Int
  base_price : String
deriving DecidableEq, Repr

/-- The process-wide cache globals `_services_cache_until` and
`_services_cache_data` (server.py lines 27-28). -/
structure CacheState where
  cache_until : Nat
  cache_data : Option (List ServiceRow)
deriving DecidableEq, Repr

/-- The cache state at process start. -/
def initialCache : CacheState := ⟨0, none⟩

/-- Outcome of `asyncio.run(fetch_active_services(...))` as seen by
`load_active_services`: the row list, or one of the two caught exception
classes. -/
inductive FetchErr where
  | moduleNotFound
  | queryFailed
deriving DecidableEq, Repr

/-- `load_active_services` (server.py lines 186-208), as one atomic step at
monotonic time `now`, with the `DATABASE_URL` environment value and the
would-be fetch outcome as inputs.  Returns the Python `(data, error)` pair,
the updated cache state, and the number of backing-store queries attempted
(0 or 1). -/
def load_active_services (dbUrlEnv : String) (now : Nat)
    (fetch : Except FetchErr (List ServiceRow)) (st : CacheState) :
    (Option (List ServiceRow) × Option String) × CacheState × Nat :=
  let database_url := normalize_database_url dbUrlEnv
  if database_url = "" then ((none, some "database_not_configured"), st, 0)
  else if st.cache_data.isSome ∧ now < st.cache_until then
    ((st.cache_data, none), st, 0)
  else
    match fetch with
    | .error .moduleNotFound => ((none, some "asyncpg_not_installed"), st, 1)
    | .error .queryFailed => ((none, some "services_query_failed"), st, 1)
    | .ok services =>
      ((some services, none), ⟨now + 60, some services⟩, 1)

/-- The externally visible behaviour of one Telegram `sendMessage` call,
abstracting the network: the remote replied ok, the remote replied without ok
(with an optional `description` string), an `HTTPError` with a status code, a
`URLError`, or any other exception. -/
inductive SendOutcome where
  | okResp
  | rejected (description : Option String)
  | httpError (code : Nat)
  | urlError
  | otherError
deriving DecidableEq, Repr

/-- `send_telegram_message`'s return value (server.py lines 133-145) for each
abstract outcome: `(True, None)` on success, otherwise `(False, code)` where
the code is the remote description (with the `telegram_unknown_error`
fallback for a falsy one), `http_<status>`, `telegram_unreachable` or
`telegram_request_failed`. -/
def send_telegram_message : SendOutcome → Bool × Option String
  | .okResp => (true, none)
  | .rejected d =>
    (false, some (match d with
      | none => "telegram_unknown_error"
      | some s => if s = "" then "telegram_unknown_error" else s))
  | .httpError c => (false, some ("http_" ++ toString c))
  | .urlError => (false, some "telegram_unreachable")
  | .otherError => (false, some "telegram_request_failed")

/-- The delivery loop of `AppHandler.do_POST` (server.py lines 303-310):
walk the recipients in configured order, count successes, and append
`"<id>:<code>"` for each failure whose code is truthy. -/
def fanout : List (String × SendOutcome) → Nat × List String
  | [] => (0, [])
  | (adminId, o) :: rest =>
    let r := send_telegram_message o
    let acc := fanout rest
    if r.1 then (acc.1 + 1, acc.2)
    else
      match r.2 with
      | some e => if e ≠ "" then (acc.1, (adminId ++ ":" ++ e) :: acc.2)
                  else (acc.1, acc.2)
      | none => (acc.1, acc.2)

/-- The JSON envelope plus status code written by `respond_json`. -/
structure HttpResponse where
  status : Nat
  ok : Bool
  error : Option String := none
  details : Option (List String) := none
  delivered : Option Nat := none
deriving DecidableEq, Repr

/-- The request body of `POST /api/request` as the handler sees it after
`self.rfile.read` (server.py lines 284-293): the raw bytes are not valid
UTF-8 — so `raw.decode` inside line 286 raises `UnicodeDecodeError`, which
the `except json.JSONDecodeError` clause at line 287 does not catch — or
they decode but `json.loads` raises `JSONDecodeError`, or they parse to a
non-`dict` JSON value, or they parse to an object (a `dict`, keys
distinct). -/
inductive BodyParse where
  | undecodable
  | malformed
  | nonObject
  | obj (fields : List (String × PyVal))
deriving DecidableEq, Repr

/-- `AppHandler.do_POST` on path `/api/request` (server.py lines 259-319).
Inputs: the raw `BOT_TOKEN` and `ADMIN_IDS` environment values, the parsed
`Content-Length` header (`none` models an absent or non-integer header, which
the code turns into 0), the body parse result, and the abstract outcome of
each Telegram call, aligned positionally with the recipient list.  The
result is `some` of the JSON response the handler writes; `none` models the
uncaught `UnicodeDecodeError` of an in-bounds non-UTF-8 body escaping the
handler at line 286 — the worker sends no HTTP response on that path.  The
config check precedes the length guard, which precedes the body read and
decode, so undecodable bytes still receive the 500 and 400 responses of the
earlier guards. -/
def do_POST (botTokenEnv adminIdsEnv : String) (contentLength : Option Int)
    (body : BodyParse) (sends : List SendOutcome) : Option HttpResponse :=
  let bot_token := pyStrip botTokenEnv
  let admin_ids := parse_admin_ids adminIdsEnv
  if bot_token = "" ∨ admin_ids = [] then
    some ⟨500, false, some "server_not_configured", none, none⟩
  else
    let length : Int := contentLength.getD 0
    if length ≤ 0 ∨ length > 20000 then
      some ⟨400, false, some "invalid_body_size", none, none⟩
    else
      match body with
      | .undecodable => none
      | .malformed => some ⟨400, false, some "invalid_json", none, none⟩
      | .nonObject => some ⟨400, false, some "invalid_payload", none, none⟩
      | .obj fields =>
        let vr := validate_payload fields
        if vr.2.isSome ∨ vr.1.isNone then
          some ⟨400, false,
            some (match vr.2 with
              | some e => if e = "" then "invalid_payload" else e
              | none => "invalid_payload"), none, none⟩
        else
          let agg := fanout (admin_ids.zip sends)
          if agg.1 = 0 then
            some ⟨502, false, some "telegram_send_failed", some agg.2, none⟩
          else
            some ⟨200, true, none, none, some agg.1⟩

/-- The error code `load_active_services` returns for each caught fetch
exception (server.py lines 200-203). -/
def fetchErrCode : FetchErr → String
  | .moduleNotFound => "asyncpg_not_installed"
  | .queryFailed => "services_query_failed"

/-- The cleaned required-field values of a payload, in check order. -/
def cleanedName (p : List (String × PyVal)) : String := clean_text (pyGet p "name") 80

/-- Cleaned `phone` field. -/
def cleanedPhone (p : List (String × PyVal)) : String := clean_text (pyGet p "phone") 40

/-- Cleaned `car` field. -/
def cleanedCar (p : List (String × PyVal)) : String := clean_text (pyGet p "car") 120

/-- Cleaned `service` field. -/
def cleanedService (p : List (String × PyVal)) : String := clean_text (pyGet p "service") 120

/-- Spec-side success condition: every required field non-empty after
normalization and the phone matching the allowed class. -/
def requiredOk (p : List (String × PyVal)) : Prop :=
  cleanedName p ≠ "" ∧ cleanedPhone p ≠ "" ∧
  PHONE_RE_fullmatch (cleanedPhone p) = true ∧
  cleanedCar p ≠ "" ∧ cleanedService p ≠ ""

instance (p : List (String × PyVal)) : Decidable (requiredOk p) := by
  unfold requiredOk; infer_instance

/-- Spec-side list of all applicable rejection reasons for a payload, in the
fixed priority order; per the spec only the first is ever reported. -/
def applicableReasons (p : List (String × PyVal)) : List String :=
  (if cleanedName p = "" then ["name_required"] else []) ++
  (if cleanedPhone p = "" then ["phone_required"] else []) ++
  (if PHONE_RE_fullmatch (cleanedPhone p) = false then ["phone_invalid"] else []) ++
  (if cleanedCar p = "" then ["car_required"] else []) ++
  (if cleanedService p = "" then ["service_required"] else [])

mutual

/-- Spec-side whitespace collapser, before the first word: leading whitespace
is dropped outright. -/
def collapseStart : List Char → List Char
  | [] => []
  | c :: rest =>
    if isPySpace c then collapseStart rest else c :: collapseIn rest

/-- Spec-side whitespace collapser, inside a word: word characters are kept
verbatim. -/
def collapseIn : List Char → List Char
  | [] => []
  | c :: rest =>
    if isPySpace c then collapseGap rest else c :: collapseIn rest

/-- Spec-side whitespace collapser, inside an internal whitespace run: the
whole run becomes one space, emitted only if another word follows (so
trailing whitespace is trimmed). -/
def collapseGap : List Char → List Char
  | [] => []
  | c :: rest =>
    if isPySpace c then collapseGap rest else ' ' :: c :: collapseIn rest

end

/-- Spec-side `clean_text` on strings, stated as the spec words it: collapse
every internal whitespace run to a single space, trim both ends, and only
then truncate to the field maximum. -/
def clean_text_spec (s : String) (maxLen : Nat) : String :=
  String.mk ((collapseStart s.toList).take maxLen)

/-- Spec-side line splitter: split the original text at every line ending,
where CRLF, lone CR and lone LF each end a line. -/
def splitLinesSpec : List Char → List (List Char)
  | [] => [[]]
  | '\r' :: '\n' :: rest => [] :: splitLinesSpec rest
  | c :: rest =>
    if c = '\n' ∨ c = '\r' then [] :: splitLinesSpec rest
    else
      match splitLinesSpec rest with
      | [] => [[c]]
      | l :: ls => (c :: l) :: ls

/-- Spec-side `clean_comment` on strings, stated as the spec words it: split
at every line-ending style, trim each line, drop lines that become empty,
rejoin with a newline, truncate. -/
def clean_comment_spec (s : String) (maxLen : Nat) : String :=
  String.mk
    ((joinNL (((splitLinesSpec s.toList).map pyStripList).filter
      (fun l => l ≠ []))).take maxLen)

/-- A concrete services row, for witnesses. -/
def sampleRow : ServiceRow := ⟨1, "Polish", "", 45, "2500.00"⟩

/-- Concrete submission with a too-short phone. -/
def phonePayloadShort : List (String × PyVal) :=
  [("name", .str "N"), ("phone", .str "123"), ("car", .str "c"),
   ("service", .str "s")]

/-- Concrete submission with a well-formed phone. -/
def phonePayloadValid : List (String × PyVal) :=
  [("name", .str "N"), ("phone", .str "+7 (900) 123-45-67"),
   ("car", .str "c"), ("service", .str "s")]

/-! ### Helper lemmas -/

theorem load_fresh {db : String} {st : CacheState} {t : Nat}
    {x : List ServiceRow} (hdb : normalize_database_url db ≠ "")
    (hd : st.cache_data = some x) (ht : t < st.cache_until)
    (f : Except FetchErr (List ServiceRow)) :
    load_active_services db t f st = ((some x, none), st, 0) := by
  unfold load_active_services
  rw [if_neg hdb, if_pos ⟨by simp [hd], ht⟩, hd]

theorem load_stale_ok {db : String} {st : CacheState} {t : Nat}
    (d : List ServiceRow) (hdb : normalize_database_url db ≠ "")
    (h : ¬ (st.cache_data.isSome ∧ t < st.cache_until)) :
    load_active_services db t (.ok d) st =
      ((some d, none), ⟨t + 60, some d⟩, 1) := by
  unfold load_active_services
  rw [if_neg hdb, if_neg h]

theorem load_stale_err {db : String} {st : CacheState} {t : Nat}
    (e : FetchErr) (hdb : normalize_database_url db ≠ "")
    (h : ¬ (st.cache_data.isSome ∧ t < st.cache_until)) :
    load_active_services db t (.error e) st =
      ((none, some (fetchErrCode e)), st, 1) := by
  unfold load_active_services
  rw [if_neg hdb, if_neg h]
  cases e <;> rfl

theorem pyGet_removeKey_self (p : List (String × PyVal)) (k : String) :
    pyGet (removeKey p k) k = none := by
  induction p with
  | nil => rfl
  | cons kv rest ih =>
    by_cases h : kv.1 = k
    · have hrw : removeKey (kv :: rest) k = removeKey rest k := by
        simp [removeKey, List.filter_cons, h]
      rw [hrw, ih]
    · have hrw : removeKey (kv :: rest) k = kv :: removeKey rest k := by
        simp [removeKey, List.filter_cons, h]
      rw [hrw]
      unfold pyGet
      rw [List.find?_cons_of_neg _ (by simp [h])]
      exact ih

theorem pyGet_removeKey_other (p : List (String × PyVal)) {k k' : String}
    (h : k' ≠ k) : pyGet (removeKey p k) k' = pyGet p k' := by
  induction p with
  | nil => rfl
  | cons kv rest ih =>
    by_cases h1 : kv.1 = k
    · have hrw : removeKey (kv :: rest) k = removeKey rest k := by
        simp [removeKey, List.filter_cons, h1]
      have h2 : ¬ kv.1 = k' := by
        rw [h1]
        exact fun hc => h hc.symm
      rw [hrw, ih]
      unfold pyGet
      rw [List.find?_cons_of_neg _ (by simp [h2])]
    · have hrw : removeKey (kv :: rest) k = kv :: removeKey rest k := by
        simp [removeKey, List.filter_cons, h1]
      rw [hrw]
      by_cases h2 : kv.1 = k'
      · unfold pyGet
        rw [List.find?_cons_of_pos _ (by simp [h2]),
          List.find?_cons_of_pos _ (by simp [h2])]
      · unfold pyGet
        rw [List.find?_cons_of_neg _ (by simp [h2]),
          List.find?_cons_of_neg _ (by simp [h2])]
        exact ih

theorem validate_payload_cases (p : List (String × PyVal)) :
    validate_payload p =
      if cleanedName p = "" then (none, some "name_required")
      else if cleanedPhone p = "" then (none, some "phone_required")
      else if PHONE_RE_fullmatch (cleanedPhone p) = false then
        (none, some "phone_invalid")
      else if cleanedCar p = "" then (none, some "car_required")
      else if cleanedService p = "" then (none, some "service_required")
      else (some [("name", cleanedName p), ("phone", cleanedPhone p),
        ("car", cleanedCar p), ("service", cleanedService p),
        ("comment", clean_comment (pyGet p "comment") 600)], none) := by
  simp only [validate_payload, cleanedName, cleanedPhone, cleanedCar,
    cleanedService, Bool.not_eq_true]

theorem validate_payload_shape (p : List (String × PyVal)) :
    (validate_payload p).1.isSome ↔ (validate_payload p).2 = none := by
  rw [validate_payload_cases]
  split_ifs <;> simp

theorem pyWords_cons (c : Char) (rest : List Char) :
    pyWords (c :: rest) =
      if isPySpace c then pyWords rest
      else
        match rest with
        | [] => [[c]]
        | d :: _ =>
          if isPySpace d then [c] :: pyWords rest
          else
            match pyWords rest with
            | [] => [[c]]
            | w :: ws => (c :: w) :: ws := rfl

theorem collapseStart_cons (c : Char) (r : List Char) :
    collapseStart (c :: r) =
      if isPySpace c then collapseStart r else c :: collapseIn r := rfl

theorem collapseIn_cons (c : Char) (r : List Char) :
    collapseIn (c :: r) =
      if isPySpace c then collapseGap r else c :: collapseIn r := rfl

theorem collapseGap_cons (c : Char) (r : List Char) :
    collapseGap (c :: r) =
      if isPySpace c then collapseGap r else ' ' :: c :: collapseIn r := rfl

theorem joinWords_cons (w : List Char) (ws : List (List Char)) :
    joinWords (w :: ws) =
      w ++ (if ws = [] then [] else ' ' :: joinWords ws) := by
  cases ws with
  | nil => simp [joinWords]
  | cons x xs => simp [joinWords]

theorem joinWords_cons_head (c : Char) (w : List Char)
    (ws : List (List Char)) :
    joinWords ((c :: w) :: ws) = c :: joinWords (w :: ws) := by
  cases ws with
  | nil => rfl
  | cons x xs => rfl

theorem pyWords_ne_nil {c : Char} (r : List Char)
    (hc : isPySpace c = false) : pyWords (c :: r) ≠ [] := by
  rw [pyWords_cons, if_neg (by simp [hc])]
  cases r with
  | nil => simp
  | cons d r' =>
    by_cases hd : isPySpace d
    · simp [hd]
    · simp only [if_neg hd]
      cases pyWords (d :: r') <;> simp

theorem pyWords_skip_ws {d : Char} (r : List Char)
    (hd : isPySpace d = true) : pyWords (d :: r) = pyWords r := by
  rw [pyWords_cons, if_pos hd]

theorem pyWords_single {c : Char} (hc : isPySpace c = false) :
    pyWords [c] = [[c]] := by
  rw [pyWords_cons, if_neg (by simp [hc])]

theorem pyWords_cons_ws {c d : Char} (r' : List Char)
    (hc : isPySpace c = false) (hd : isPySpace d = true) :
    pyWords (c :: d :: r') = [c] :: pyWords (d :: r') := by
  rw [pyWords_cons, if_neg (by simp [hc])]
  show (if isPySpace d then [c] :: pyWords (d :: r')
    else
      match pyWords (d :: r') with
      | [] => [[c]]
      | w :: ws => (c :: w) :: ws) = [c] :: pyWords (d :: r')
  rw [if_pos hd]

theorem pyWords_cons_word {c d : Char} (r' : List Char)
    (hc : isPySpace c = false) (hd : isPySpace d = false) :
    pyWords (c :: d :: r') =
      (match pyWords (d :: r') with
        | [] => [[c]]
        | w :: ws => (c :: w) :: ws) := by
  rw [pyWords_cons, if_neg (by simp [hc])]
  show (if isPySpace d then [c] :: pyWords (d :: r')
    else
      match pyWords (d :: r') with
      | [] => [[c]]
      | w :: ws => (c :: w) :: ws) =
      (match pyWords (d :: r') with
        | [] => [[c]]
        | w :: ws => (c :: w) :: ws)
  rw [if_neg (by simp [hd])]

theorem collapse_join : ∀ (n : Nat) (l : List Char), l.length ≤ n →
    (collapseStart l = joinWords (pyWords l)) ∧
    (collapseGap l =
      if pyWords l = [] then [] else ' ' :: joinWords (pyWords l)) ∧
    (∀ c r, l = c :: r → isPySpace c = false →
      collapseIn l = joinWords (pyWords l)) := by
  intro n
  induction n with
  | zero =>
    intro l hl
    have hnil : l = [] := List.length_eq_zero.mp (Nat.le_zero.mp hl)
    subst hnil
    exact ⟨rfl, rfl, fun c r hcr _ => List.noConfusion hcr⟩
  | succ n ih =>
    intro l hl
    cases l with
    | nil => exact ⟨rfl, rfl, fun c r hcr _ => List.noConfusion hcr⟩
    | cons c r =>
      have hr : r.length ≤ n := by
        simpa using Nat.succ_le_succ_iff.mp (by simpa using hl)
      obtain ⟨ihA, ihB, ihC⟩ := ih r hr
      by_cases hc : isPySpace c = true
      · have hpw : pyWords (c :: r) = pyWords r := by
          rw [pyWords_cons, if_pos hc]
        refine ⟨?_, ?_, ?_⟩
        · rw [collapseStart_cons, if_pos hc, hpw, ihA]
        · rw [collapseGap_cons, if_pos hc, hpw, ihB]
        · intro c' r' hcr hc'
          obtain ⟨he, _⟩ := List.cons.injEq .. ▸ hcr
          rw [he, hc'] at hc
          exact absurd hc (by simp)
      · have hcf : isPySpace c = false := by
          simpa using hc
        have hIn : collapseIn (c :: r) = joinWords (pyWords (c :: r)) := by
          cases r with
          | nil =>
            rw [collapseIn_cons, if_neg hc, pyWords_single hcf]
            rfl
          | cons d r' =>
            by_cases hd : isPySpace d = true
            · have hr' : r'.length ≤ n := by
                have := hr
                simp only [List.length_cons] at this
                omega
              obtain ⟨_, ihB', _⟩ := ih r' hr'
              rw [collapseIn_cons, if_neg hc, collapseIn_cons, if_pos hd,
                ihB', pyWords_cons_ws r' hcf hd, pyWords_skip_ws r' hd,
                joinWords_cons]
              rfl
            · have hdf : isPySpace d = false := by simpa using hd
              have hne := pyWords_ne_nil r' hdf
              have hInR := ihC d r' rfl hdf
              cases hpw : pyWords (d :: r') with
              | nil => exact absurd hpw hne
              | cons w ws =>
                rw [collapseIn_cons, if_neg hc, hInR, hpw,
                  pyWords_cons_word r' hcf hdf, hpw]
                show c :: joinWords (w :: ws) = joinWords ((c :: w) :: ws)
                exact (joinWords_cons_head c w ws).symm
        refine ⟨?_, ?_, ?_⟩
        · rw [collapseStart_cons, if_neg hc, ← hIn, collapseIn_cons,
            if_neg hc]
        · rw [collapseGap_cons, if_neg hc,
            if_neg (pyWords_ne_nil r hcf), ← hIn, collapseIn_cons,
            if_neg hc]
        · intro c' r' _ _
          exact hIn

theorem pyWords_dropWhile (l : List Char) :
    pyWords (l.dropWhile isPySpace) = pyWords l := by
  induction l with
  | nil => rfl
  | cons c r ih =>
    by_cases hc : isPySpace c = true
    · rw [List.dropWhile_cons_of_pos hc, ih, pyWords_cons, if_pos hc]
    · rw [List.dropWhile_cons_of_neg hc]

theorem pyWords_all_ws (w : List Char)
    (hw : ∀ c ∈ w, isPySpace c = true) : pyWords w = [] := by
  induction w with
  | nil => rfl
  | cons c r ih =>
    rw [pyWords_cons, if_pos (hw c (by simp))]
    exact ih (fun x hx => hw x (by simp [hx]))

theorem pyWords_append_ws (m w : List Char)
    (hw : ∀ c ∈ w, isPySpace c = true) : pyWords (m ++ w) = pyWords m := by
  induction m with
  | nil => simpa using pyWords_all_ws w hw
  | cons c m' ih =>
    by_cases hc : isPySpace c = true
    · rw [List.cons_append, pyWords_cons, if_pos hc, ih, pyWords_cons,
        if_pos hc]
    · rw [List.cons_append, pyWords_cons, if_neg hc, pyWords_cons,
        if_neg hc]
      cases m' with
      | nil =>
        cases w with
        | nil => rfl
        | cons d w' =>
          have hd : isPySpace d = true := hw d (by simp)
          simp only [List.nil_append, if_pos hd]
          rw [pyWords_all_ws (d :: w') hw]
      | cons d m'' =>
        by_cases hd : isPySpace d = true
        · simp only [List.cons_append, if_pos hd]
          rw [show (d :: m'') ++ w = d :: (m'' ++ w) from rfl] at ih
          rw [ih]
        · simp only [List.cons_append, if_neg hd]
          have hdf : isPySpace d = false := by simpa using hd
          rw [show (d :: m'') ++ w = d :: (m'' ++ w) from rfl] at ih
          rw [ih]

theorem pyWords_pyStripList (l : List Char) :
    pyWords (pyStripList l) = pyWords l := by
  unfold pyStripList
  set a := l.dropWhile isPySpace with ha
  have hsplit : a = (a.reverse.dropWhile isPySpace).reverse ++
      (a.reverse.takeWhile isPySpace).reverse := by
    rw [← List.reverse_append, List.takeWhile_append_dropWhile,
      List.reverse_reverse]
  have hws : ∀ c ∈ (a.reverse.takeWhile isPySpace).reverse,
      isPySpace c = true := by
    intro c hx
    rw [List.mem_reverse] at hx
    exact List.mem_takeWhile_imp hx
  calc pyWords (a.reverse.dropWhile isPySpace).reverse
      = pyWords ((a.reverse.dropWhile isPySpace).reverse ++
          (a.reverse.takeWhile isPySpace).reverse) :=
        (pyWords_append_ws _ _ hws).symm
    _ = pyWords a := by rw [← hsplit]
    _ = pyWords l := by rw [ha, pyWords_dropWhile]

theorem splitOnNL_ne_nil (l : List Char) : splitOnNL l ≠ [] := by
  cases l with
  | nil => simp [splitOnNL]
  | cons c r =>
    by_cases hc : c = '\n'
    · simp [splitOnNL, hc]
    · simp only [splitOnNL, if_neg hc]
      cases splitOnNL r <;> simp

theorem splitOnNL_cons_nl (x : List Char) :
    splitOnNL ('\n' :: x) = [] :: splitOnNL x := by
  simp [splitOnNL]

theorem splitOnNL_cons_of_ne (c : Char) (x : List Char) (hc : c ≠ '\n') :
    splitOnNL (c :: x) =
      (c :: (splitOnNL x).headD []) :: (splitOnNL x).tail := by
  cases h : splitOnNL x with
  | nil => exact absurd h (splitOnNL_ne_nil x)
  | cons l ls => simp [splitOnNL, hc, h]

theorem pyStripList_cons_ws {c : Char} (l : List Char)
    (hc : isPySpace c = true) : pyStripList (c :: l) = pyStripList l := by
  unfold pyStripList
  rw [List.dropWhile_cons_of_pos hc]

theorem pyStripList_all_ws (l : List Char)
    (h : ∀ c ∈ l, isPySpace c = true) : pyStripList l = [] := by
  unfold pyStripList
  rw [List.dropWhile_eq_nil_iff.mpr h]
  rfl

theorem pyStripList_append_ws (x w : List Char)
    (hw : ∀ c ∈ w, isPySpace c = true) :
    pyStripList (x ++ w) = pyStripList x := by
  by_cases hx : ∀ c ∈ x, isPySpace c = true
  · rw [pyStripList_all_ws x hx, pyStripList_all_ws (x ++ w) (by
      intro c hc
      rcases List.mem_append.mp hc with h | h
      exacts [hx c h, hw c h])]
  · have hxd : (x ++ w).dropWhile isPySpace =
        x.dropWhile isPySpace ++ w := by
      rw [List.dropWhile_append]
      have : ¬ (x.dropWhile isPySpace).isEmpty = true := by
        rw [List.isEmpty_iff, List.dropWhile_eq_nil_iff]
        exact hx
      simp only [this]
      simp
    unfold pyStripList
    rw [hxd, List.reverse_append,
      List.dropWhile_append_of_pos (by
        intro c hc
        rw [List.mem_reverse] at hc
        exact hw c hc)]

theorem splitOnNL_chunks_ws (w : List Char)
    (hw : ∀ c ∈ w, isPySpace c = true) :
    ∀ x ∈ splitOnNL w, ∀ c ∈ x, isPySpace c = true := by
  induction w with
  | nil =>
    intro x hx
    simp [splitOnNL] at hx
    simp [hx]
  | cons c r ih =>
    have ihr := ih (fun y hy => hw y (by simp [hy]))
    by_cases hn : c = '\n'
    · subst hn
      rw [splitOnNL_cons_nl]
      intro x hx
      rcases List.mem_cons.mp hx with h | h
      · simp [h]
      · exact ihr x h
    · rw [splitOnNL_cons_of_ne c r hn]
      intro x hx
      cases hsr : splitOnNL r with
      | nil => exact absurd hsr (splitOnNL_ne_nil r)
      | cons l ls =>
        rw [hsr] at hx
        simp only [List.headD_cons, List.tail_cons] at hx
        rcases List.mem_cons.mp hx with h | h
        · subst h
          intro y hy
          rcases List.mem_cons.mp hy with h | h
          · rw [h]
            exact hw c (by simp)
          · exact ihr l (by rw [hsr]; simp) y h
        · exact ihr x (by rw [hsr]; simp [h])

theorem splitOnNL_append_decomp (m w hw' : List Char)
    (tw : List (List Char)) (hsw : splitOnNL w = hw' :: tw) :
    ∃ pre last, splitOnNL m = pre ++ [last] ∧
      splitOnNL (m ++ w) = pre ++ (last ++ hw') :: tw := by
  induction m with
  | nil => exact ⟨[], [], rfl, by simpa using hsw⟩
  | cons c m' ih =>
    obtain ⟨pre', last', h1, h2⟩ := ih
    by_cases hc : c = '\n'
    · subst hc
      refine ⟨[] :: pre', last', ?_, ?_⟩
      · rw [splitOnNL_cons_nl, h1]
        rfl
      · rw [List.cons_append, splitOnNL_cons_nl, h2]
        rfl
    · cases pre' with
      | nil =>
        refine ⟨[], c :: last', ?_, ?_⟩
        · rw [splitOnNL_cons_of_ne c m' hc, h1]
          simp
        · rw [List.cons_append, splitOnNL_cons_of_ne c (m' ++ w) hc, h2]
          simp
      | cons p ps =>
        refine ⟨(c :: p) :: ps, last', ?_, ?_⟩
        · rw [splitOnNL_cons_of_ne c m' hc, h1]
          simp
        · rw [List.cons_append, splitOnNL_cons_of_ne c (m' ++ w) hc, h2]
          simp

theorem keptLines_cons_ws {c : Char} (l : List Char)
    (hc : isPySpace c = true) :
    ((splitOnNL (c :: l)).map pyStripList).filter (fun x => x ≠ []) =
      ((splitOnNL l).map pyStripList).filter (fun x => x ≠ []) := by
  by_cases hn : c = '\n'
  · subst hn
    rw [splitOnNL_cons_nl, List.map_cons,
      show pyStripList [] = [] from rfl]
    simp [List.filter_cons]
  · cases h : splitOnNL l with
    | nil => exact absurd h (splitOnNL_ne_nil l)
    | cons x xs =>
      rw [splitOnNL_cons_of_ne c l hn, h]
      simp only [List.headD_cons, List.tail_cons, List.map_cons]
      rw [pyStripList_cons_ws x hc]

theorem keptLines_dropWhile (l : List Char) :
    ((splitOnNL (l.dropWhile isPySpace)).map pyStripList).filter
        (fun x => x ≠ []) =
      ((splitOnNL l).map pyStripList).filter (fun x => x ≠ []) := by
  induction l with
  | nil => rfl
  | cons c r ih =>
    by_cases hc : isPySpace c = true
    · rw [List.dropWhile_cons_of_pos hc, ih, keptLines_cons_ws r hc]
    · rw [List.dropWhile_cons_of_neg hc]

theorem keptLines_append_ws (m w : List Char)
    (hw : ∀ c ∈ w, isPySpace c = true) :
    ((splitOnNL (m ++ w)).map pyStripList).filter (fun x => x ≠ []) =
      ((splitOnNL m).map pyStripList).filter (fun x => x ≠ []) := by
  cases hsw : splitOnNL w with
  | nil => exact absurd hsw (splitOnNL_ne_nil w)
  | cons hw' tw =>
    obtain ⟨pre, last, h1, h2⟩ := splitOnNL_append_decomp m w hw' tw hsw
    have hcw := splitOnNL_chunks_ws w hw
    have hhw : ∀ c ∈ hw', isPySpace c = true :=
      fun c hc => hcw hw' (by rw [hsw]; simp) c hc
    have htw : ∀ x ∈ tw, ∀ c ∈ x, isPySpace c = true :=
      fun x hx => hcw x (by rw [hsw]; simp [hx])
    have htwf : (tw.map pyStripList).filter (fun x => x ≠ []) = [] := by
      rw [List.filter_eq_nil_iff]
      intro a ha
      obtain ⟨x, hx, hax⟩ := List.mem_map.mp ha
      rw [← hax, pyStripList_all_ws x (htw x hx)]
      simp
    rw [h1, h2, List.map_append, List.map_append, List.filter_append,
      List.filter_append, List.map_cons,
      pyStripList_append_ws last hw' hhw]
    congr 1
    rw [List.map_singleton, List.filter_cons, List.filter_cons, htwf]
    rfl

theorem keptLines_pyStripList (l : List Char) :
    ((splitOnNL (pyStripList l)).map pyStripList).filter
        (fun x => x ≠ []) =
      ((splitOnNL l).map pyStripList).filter (fun x => x ≠ []) := by
  unfold pyStripList
  set a := l.dropWhile isPySpace with ha
  have hsplit : a = (a.reverse.dropWhile isPySpace).reverse ++
      (a.reverse.takeWhile isPySpace).reverse := by
    rw [← List.reverse_append, List.takeWhile_append_dropWhile,
      List.reverse_reverse]
  have hws : ∀ c ∈ (a.reverse.takeWhile isPySpace).reverse,
      isPySpace c = true := by
    intro c hx
    rw [List.mem_reverse] at hx
    exact List.mem_takeWhile_imp hx
  calc ((splitOnNL (a.reverse.dropWhile isPySpace).reverse).map
          pyStripList).filter (fun x => x ≠ [])
      = ((splitOnNL ((a.reverse.dropWhile isPySpace).reverse ++
          (a.reverse.takeWhile isPySpace).reverse)).map
            pyStripList).filter (fun x => x ≠ []) :=
        (keptLines_append_ws _ _ hws).symm
    _ = ((splitOnNL a).map pyStripList).filter (fun x => x ≠ []) := by
        rw [← hsplit]
    _ = ((splitOnNL l).map pyStripList).filter (fun x => x ≠ []) := by
        rw [ha]
        exact keptLines_dropWhile l

theorem replaceCRLF_cr_cons {d : Char} (r : List Char) (hd : d ≠ '\n') :
    replaceCRLF ('\r' :: d :: r) = '\r' :: replaceCRLF (d :: r) := by
  simp [replaceCRLF, hd]

theorem replaceCRLF_cons_of_ne {c : Char} (r : List Char) (hc : c ≠ '\r') :
    replaceCRLF (c :: r) = c :: replaceCRLF r := by
  simp [replaceCRLF, hc]

theorem splitLinesSpec_cr_cons {d : Char} (r : List Char) (hd : d ≠ '\n') :
    splitLinesSpec ('\r' :: d :: r) = [] :: splitLinesSpec (d :: r) := by
  simp [splitLinesSpec, hd]

theorem splitLinesSpec_cons_nl (r : List Char) :
    splitLinesSpec ('\n' :: r) = [] :: splitLinesSpec r := by
  simp [splitLinesSpec]

theorem splitLinesSpec_cons_word {c : Char} (r : List Char)
    (hc : c ≠ '\r') (hn : c ≠ '\n') :
    splitLinesSpec (c :: r) =
      (match splitLinesSpec r with
        | [] => [[c]]
        | l :: ls => (c :: l) :: ls) := by
  simp [splitLinesSpec, hc, hn]

theorem replaceCR_cons (c : Char) (r : List Char) :
    replaceCR (c :: r) =
      (if c = '\r' then '\n' else c) :: replaceCR r := by
  simp [replaceCR]

theorem splitOnNL_replace : ∀ (n : Nat) (l : List Char), l.length ≤ n →
    splitOnNL (replaceCR (replaceCRLF l)) = splitLinesSpec l := by
  intro n
  induction n with
  | zero =>
    intro l hl
    have hnil : l = [] := List.length_eq_zero.mp (Nat.le_zero.mp hl)
    subst hnil
    rfl
  | succ n ih =>
    intro l hl
    cases l with
    | nil => rfl
    | cons c r =>
      by_cases hc : c = '\r'
      · subst hc
        cases r with
        | nil => rfl
        | cons d r2 =>
          by_cases hd : d = '\n'
          · subst hd
            have hr2 : r2.length ≤ n := by
              simp only [List.length_cons] at hl
              omega
            rw [show replaceCRLF ('\r' :: '\n' :: r2) =
                '\n' :: replaceCRLF r2 from rfl,
              replaceCR_cons, if_neg (by decide), splitOnNL_cons_nl,
              ih r2 hr2,
              show splitLinesSpec ('\r' :: '\n' :: r2) =
                [] :: splitLinesSpec r2 from rfl]
          · have hr : (d :: r2).length ≤ n := by
              simp only [List.length_cons] at hl ⊢
              omega
            rw [replaceCRLF_cr_cons r2 hd, replaceCR_cons,
              if_pos rfl, splitOnNL_cons_nl, ih (d :: r2) hr,
              splitLinesSpec_cr_cons r2 hd]
      · have hr : r.length ≤ n := by
          simp only [List.length_cons] at hl
          omega
        by_cases hn : c = '\n'
        · subst hn
          rw [replaceCRLF_cons_of_ne r (by decide), replaceCR_cons,
            if_neg (by decide), splitOnNL_cons_nl, ih r hr,
            splitLinesSpec_cons_nl]
        · rw [replaceCRLF_cons_of_ne r hc, replaceCR_cons, if_neg hc,
            splitOnNL_cons_of_ne c _ hn, ih r hr,
            splitLinesSpec_cons_word r hc hn]
          cases hsr : splitLinesSpec r with
          | nil =>
            exact absurd ((ih r hr).trans hsr)
              (splitOnNL_ne_nil (replaceCR (replaceCRLF r)))
          | cons l ls => simp

theorem send_failure_code {o : SendOutcome}
    (h : (send_telegram_message o).1 = false) :
    ∃ e, (send_telegram_message o).2 = some e ∧ e ≠ "" := by
  cases o with
  | okResp => simp [send_telegram_message] at h
  | rejected d =>
    cases d with
    | none => exact ⟨"telegram_unknown_error", rfl, by decide⟩
    | some s =>
      by_cases hs : s = ""
      · exact ⟨"telegram_unknown_error", by simp [send_telegram_message, hs],
          by decide⟩
      · exact ⟨s, by simp [send_telegram_message, hs], hs⟩
  | httpError c =>
    refine ⟨"http_" ++ toString c, rfl, fun hc => ?_⟩
    have hlen := congrArg String.length hc
    rw [String.length_append, show ("http_".length) = 5 from rfl,
      show ("".length) = 0 from rfl] at hlen
    omega
  | urlError => exact ⟨"telegram_unreachable", rfl, by decide⟩
  | otherError => exact ⟨"telegram_request_failed", rfl, by decide⟩

theorem fanout_cons (adminId : String) (o : SendOutcome)
    (rest : List (String × SendOutcome)) :
    fanout ((adminId, o) :: rest) =
      if (send_telegram_message o).1 then
        ((fanout rest).1 + 1, (fanout rest).2)
      else
        match (send_telegram_message o).2 with
        | some e =>
          if e ≠ "" then
            ((fanout rest).1, (adminId ++ ":" ++ e) :: (fanout rest).2)
          else ((fanout rest).1, (fanout rest).2)
        | none => ((fanout rest).1, (fanout rest).2) := rfl

theorem fanout_eq (atts : List (String × SendOutcome)) :
    fanout atts =
      (atts.countP (fun a => (send_telegram_message a.2).1),
        (atts.filter (fun a => !(send_telegram_message a.2).1)).map
          (fun a => a.1 ++ ":" ++ ((send_telegram_message a.2).2.getD ""))) := by
  induction atts with
  | nil => rfl
  | cons a rest ih =>
    obtain ⟨adminId, o⟩ := a
    rw [fanout_cons, ih]
    cases hb : (send_telegram_message o).1 with
    | true => simp [hb, List.countP_cons, List.filter_cons]
    | false =>
      obtain ⟨e, he, hne⟩ := send_failure_code hb
      simp [hb, he, hne, List.countP_cons, List.filter_cons]

/-! ### Claim theorems -/

/-- C8: `clean_text` treats any non-string (or missing) value as the empty
string; on strings it equals the spec-side one-pass normalizer — collapse
every internal whitespace run to a single space, trim both ends — with
truncation to the field maximum applied only after that normalization. -/
theorem clean_text_spec_correct (s : String) (n : Nat) :
    clean_text (some (.str s)) n = clean_text_spec s n ∧
    clean_text (some .nonStr) n = "" ∧ clean_text none n = "" := by
  refine ⟨?_, rfl, rfl⟩
  show String.mk ((joinWords (pyWords (pyStripList s.toList))).take n) =
    String.mk ((collapseStart s.toList).take n)
  rw [pyWords_pyStripList, (collapse_join s.toList.length s.toList le_rfl).1]

/-- C7: `clean_comment` treats any non-string (or missing) value as the
empty string; on strings it equals the spec-side pipeline — split the
original text at every CRLF, CR or LF, trim each line, drop lines that
become empty, rejoin with LF — truncated to the limit; in particular
the input with mixed endings and a blank line normalizes to three lines. -/
theorem clean_comment_spec_correct (s : String) (n : Nat) :
    clean_comment (some (.str s)) n = clean_comment_spec s n ∧
    clean_comment (some (.str "a\r\n\r\nb\rc")) 600 = "a\nb\nc" ∧
    clean_comment (some .nonStr) n = "" ∧ clean_comment none n = "" := by
  refine ⟨?_, by decide, rfl, rfl⟩
  show String.mk ((joinNL (((splitOnNL (pyStripList
      (replaceCR (replaceCRLF s.toList)))).map pyStripList).filter
        (fun l => l ≠ []))).take n) =
    String.mk ((joinNL (((splitLinesSpec s.toList).map pyStripList).filter
        (fun l => l ≠ []))).take n)
  rw [keptLines_pyStripList,
    splitOnNL_replace s.toList.length s.toList le_rfl]

/-- C1: sanitization succeeds exactly when the four required fields are
non-empty after normalization and the phone matches the allowed class; the
reported rejection is always the first applicable reason in the fixed
priority order `name_required, phone_required, phone_invalid, car_required,
service_required`; and removing any single required field from a valid
payload yields exactly that field's rejection reason and no other. -/
theorem validate_payload_characterization (p : List (String × PyVal)) :
    ((validate_payload p).1.isSome ↔ requiredOk p) ∧
    ((validate_payload p).2 = (applicableReasons p).head?) ∧
    (requiredOk p →
      validate_payload (removeKey p "name") = (none, some "name_required") ∧
      validate_payload (removeKey p "phone") = (none, some "phone_required") ∧
      validate_payload (removeKey p "car") = (none, some "car_required") ∧
      validate_payload (removeKey p "service") =
        (none, some "service_required")) := by
  refine ⟨?_, ?_, ?_⟩
  · rw [validate_payload_cases]
    unfold requiredOk
    split_ifs <;> simp_all
  · rw [validate_payload_cases]
    unfold applicableReasons
    split_ifs <;> simp_all
  · rintro ⟨hn, hp, hmatch, hc, hs⟩
    refine ⟨?_, ?_, ?_, ?_⟩
    · have e1 : cleanedName (removeKey p "name") = "" := by
        unfold cleanedName
        rw [pyGet_removeKey_self]
        rfl
      rw [validate_payload_cases, e1, if_pos rfl]
    · have e1 : cleanedName (removeKey p "phone") = cleanedName p := by
        unfold cleanedName
        rw [pyGet_removeKey_other _ (by decide)]
      have e2 : cleanedPhone (removeKey p "phone") = "" := by
        unfold cleanedPhone
        rw [pyGet_removeKey_self]
        rfl
      rw [validate_payload_cases, e1, e2, if_neg hn, if_pos rfl]
    · have e1 : cleanedName (removeKey p "car") = cleanedName p := by
        unfold cleanedName
        rw [pyGet_removeKey_other _ (by decide)]
      have e2 : cleanedPhone (removeKey p "car") = cleanedPhone p := by
        unfold cleanedPhone
        rw [pyGet_removeKey_other _ (by decide)]
      have e3 : cleanedCar (removeKey p "car") = "" := by
        unfold cleanedCar
        rw [pyGet_removeKey_self]
        rfl
      rw [validate_payload_cases, e1, e2, e3, if_neg hn, if_neg hp,
        if_neg (by simp [hmatch]), if_pos rfl]
    · have e1 : cleanedName (removeKey p "service") = cleanedName p := by
        unfold cleanedName
        rw [pyGet_removeKey_other _ (by decide)]
      have e2 : cleanedPhone (removeKey p "service") = cleanedPhone p := by
        unfold cleanedPhone
        rw [pyGet_removeKey_other _ (by decide)]
      have e3 : cleanedCar (removeKey p "service") = cleanedCar p := by
        unfold cleanedCar
        rw [pyGet_removeKey_other _ (by decide)]
      have e4 : cleanedService (removeKey p "service") = "" := by
        unfold cleanedService
        rw [pyGet_removeKey_self]
        rfl
      rw [validate_payload_cases, e1, e2, e3, e4, if_neg hn, if_neg hp,
        if_neg (by simp [hmatch]), if_neg hc, if_pos rfl]

/-- Witness for C1: a fully valid payload, and the four single-field
removals each yielding exactly that field's rejection reason. -/
theorem validate_payload_characterization_witness :
    requiredOk phonePayloadValid ∧
    (validate_payload (removeKey phonePayloadValid "name") =
        (none, some "name_required") ∧
      validate_payload (removeKey phonePayloadValid "phone") =
        (none, some "phone_required") ∧
      validate_payload (removeKey phonePayloadValid "car") =
        (none, some "car_required") ∧
      validate_payload (removeKey phonePayloadValid "service") =
        (none, some "service_required")) :=
  ⟨by decide,
    (validate_payload_characterization phonePayloadValid).2.2 (by decide)⟩

/-- C6: with a present name and a non-empty normalized phone, validation
reports `phone_invalid` exactly when the phone fails `PHONE_RE`, and never
reports `phone_required`; `PHONE_RE` accepts exactly the strings over
digits, `+`, `-`, `(`, `)` and whitespace of length 6 to 25; `"123"` is
rejected as `phone_invalid` and `"+7 (900) 123-45-67"` passes. -/
theorem phone_validation (p : List (String × PyVal))
    (hname : cleanedName p ≠ "") (hph : cleanedPhone p ≠ "") :
    ((validate_payload p).2 = some "phone_invalid" ↔
      PHONE_RE_fullmatch (cleanedPhone p) = false) ∧
    (validate_payload p).2 ≠ some "phone_required" ∧
    (∀ s : String, PHONE_RE_fullmatch s = true ↔
      ((∀ c ∈ s.toList, isPhoneChar c = true) ∧
        6 ≤ s.length ∧ s.length ≤ 25)) ∧
    validate_payload phonePayloadShort = (none, some "phone_invalid") ∧
    (validate_payload phonePayloadValid).2 = none := by
  have key : ((validate_payload p).2 = some "phone_invalid" ↔
      PHONE_RE_fullmatch (cleanedPhone p) = false) ∧
      (validate_payload p).2 ≠ some "phone_required" := by
    rw [validate_payload_cases, if_neg hname, if_neg hph]
    cases hb : PHONE_RE_fullmatch (cleanedPhone p) with
    | false => simp
    | true =>
      rw [if_neg (by simp)]
      split_ifs <;> simp
  refine ⟨key.1, key.2, ?_, by decide, by decide⟩
  intro s
  unfold PHONE_RE_fullmatch
  simp [List.all_eq_true, Bool.and_eq_true, decide_eq_true_eq, and_assoc]

/-- Witness for C6: the short-phone payload has a present name and non-empty
phone, and the theorem's conclusions hold there. -/
theorem phone_validation_witness :
    cleanedName phonePayloadShort ≠ "" ∧ cleanedPhone phonePayloadShort ≠ "" ∧
    (((validate_payload phonePayloadShort).2 = some "phone_invalid" ↔
        PHONE_RE_fullmatch (cleanedPhone phonePayloadShort) = false) ∧
      (validate_payload phonePayloadShort).2 ≠ some "phone_required" ∧
      (∀ s : String, PHONE_RE_fullmatch s = true ↔
        ((∀ c ∈ s.toList, isPhoneChar c = true) ∧
          6 ≤ s.length ∧ s.length ≤ 25)) ∧
      validate_payload phonePayloadShort = (none, some "phone_invalid") ∧
      (validate_payload phonePayloadValid).2 = none) :=
  ⟨by decide, by decide,
    phone_validation phonePayloadShort (by decide) (by decide)⟩

/-- C3: for a configured server and a valid submission, the delivery fan-out
walks the recipients in configured order; `delivered` counts exactly the
successful recipients; the failure list holds one `recipient:code` entry per
failed recipient, in configured order; the response is HTTP 200 with the
delivered count when at least one recipient succeeded and HTTP 502
`telegram_send_failed` carrying every failure code exactly when all fail. -/
theorem do_POST_fanout_report
    (bot admins : String) (cl : Option Int) (fields : List (String × PyVal))
    (sends : List SendOutcome)
    (hbot : pyStrip bot ≠ "") (hadm : parse_admin_ids admins ≠ [])
    (hlen : 0 < cl.getD 0) (hlen2 : cl.getD 0 ≤ 20000)
    (hvalid : (validate_payload fields).2 = none)
    (_hn : sends.length = (parse_admin_ids admins).length) :
    do_POST bot admins cl (.obj fields) sends =
      (if ((parse_admin_ids admins).zip sends).countP
          (fun a => (send_telegram_message a.2).1) = 0 then
        some ⟨502, false, some "telegram_send_failed",
          some ((((parse_admin_ids admins).zip sends).filter
            (fun a => !(send_telegram_message a.2).1)).map
              (fun a => a.1 ++ ":" ++ ((send_telegram_message a.2).2.getD ""))),
          none⟩
      else
        some ⟨200, true, none, none,
          some (((parse_admin_ids admins).zip sends).countP
            (fun a => (send_telegram_message a.2).1))⟩) ∧
    ((((parse_admin_ids admins).zip sends).filter
        (fun a => !(send_telegram_message a.2).1)).map
          (fun a => a.1 ++ ":" ++ ((send_telegram_message a.2).2.getD ""))).length =
      ((parse_admin_ids admins).zip sends).countP
        (fun a => !(send_telegram_message a.2).1) := by
  have hcfg : ¬ (pyStrip bot = "" ∨ parse_admin_ids admins = []) := by
    rintro (h | h)
    exacts [hbot h, hadm h]
  have hsz : ¬ (cl.getD 0 ≤ 0 ∨ cl.getD 0 > 20000) := by omega
  constructor
  · have hvr : ¬ ((validate_payload fields).2.isSome ∨
        (validate_payload fields).1.isNone) := by
      rw [hvalid]
      have h1 := (validate_payload_shape fields).2 hvalid
      simp [Option.isNone_iff_eq_none]
      exact Option.ne_none_iff_isSome.mpr h1
    simp only [do_POST]
    rw [if_neg hcfg, if_neg hsz]
    rw [if_neg hvr, fanout_eq]
  · rw [List.length_map]
    exact (List.countP_eq_length_filter _ _).symm

/-- Witness for C3: with recipients A, B, C, one failure and two successes
give HTTP 200 with `delivered = 2`; three failures give HTTP 502 with the
three failure entries in configured order. -/
theorem do_POST_fanout_report_witness :
    pyStrip "t" ≠ "" ∧ parse_admin_ids "A,B,C" ≠ [] ∧
    (validate_payload phonePayloadValid).2 = none ∧
    do_POST "t" "A,B,C" (some 10) (.obj phonePayloadValid)
      [.urlError, .okResp, .okResp] = some ⟨200, true, none, none, some 2⟩ ∧
    do_POST "t" "A,B,C" (some 10) (.obj phonePayloadValid)
      [.urlError, .httpError 500, .rejected none] =
      some ⟨502, false, some "telegram_send_failed",
        some ["A:telegram_unreachable", "B:http_500",
          "C:telegram_unknown_error"], none⟩ :=
  ⟨by decide, by decide, by decide,
    ((do_POST_fanout_report "t" "A,B,C" (some 10) phonePayloadValid
      [.urlError, .okResp, .okResp] (by decide) (by decide) (by decide)
      (by decide) (by decide) (by decide)).1).trans (by decide),
    ((do_POST_fanout_report "t" "A,B,C" (some 10) phonePayloadValid
      [.urlError, .httpError 500, .rejected none] (by decide) (by decide)
      (by decide) (by decide) (by decide) (by decide)).1).trans (by decide)⟩

/-- C2: after a successful services fetch at time `t0`, the snapshot is fresh
for exactly the 60 time units `t < t0 + 60`; every call in that window
returns the identical snapshot with no backing-store query, and a call at or
after `t0 + 60` performs exactly one new query whose result replaces the
snapshot and expiry. -/
theorem services_cache_ttl_window
    (db : String) (t0 t : Nat) (fetch : Except FetchErr (List ServiceRow))
    (d d' : List ServiceRow) (st0 st1 : CacheState)
    (r : Option (List ServiceRow) × Option String) (q : Nat)
    (hdb : normalize_database_url db ≠ "")
    (hload : load_active_services db t0 (.ok d) st0 = (r, st1, q))
    (hq : q = 1) :
    r = (some d, none) ∧ st1 = ⟨t0 + 60, some d⟩ ∧
    (t < t0 + 60 →
      load_active_services db t fetch st1 = ((some d, none), st1, 0)) ∧
    (t0 + 60 ≤ t →
      load_active_services db t (.ok d') st1 =
        ((some d', none), ⟨t + 60, some d'⟩, 1)) := by
  subst hq
  by_cases h2 : st0.cache_data.isSome ∧ t0 < st0.cache_until
  · obtain ⟨hd, ht⟩ := h2
    obtain ⟨x, hx⟩ := Option.isSome_iff_exists.mp hd
    rw [load_fresh hdb hx ht] at hload
    exact absurd (congrArg (fun z => z.2.2) hload) (by simp)
  · rw [load_stale_ok d hdb h2] at hload
    have hr : r = (some d, none) := by
      have := congrArg (fun z => z.1) hload
      simpa using this.symm
    have hst : st1 = ⟨t0 + 60, some d⟩ := by
      have := congrArg (fun z => z.2.1) hload
      simpa using this.symm
    subst hr; subst hst
    refine ⟨rfl, rfl, ?_, ?_⟩
    · intro hlt
      exact load_fresh hdb rfl hlt fetch
    · intro hge
      refine load_stale_ok d' hdb ?_
      intro hc
      exact absurd hc.2 (by simp; omega)

/-- C10: when the backing-store connection string is absent, every
`load_active_services` call returns `database_not_configured`, leaves the
cache untouched and performs no query, even if a fresh snapshot is cached. -/
theorem load_active_services_not_configured_bypasses_cache
    (db : String) (t : Nat) (f : Except FetchErr (List ServiceRow))
    (st : CacheState) (hdb : normalize_database_url db = "") :
    load_active_services db t f st =
      ((none, some "database_not_configured"), st, 0) := by
  unfold load_active_services
  rw [if_pos hdb]

/-- Witness for C2: a successful fetch at time 0, a fresh hit at 59 with no
query, and the boundary case packaged by the theorem. -/
theorem services_cache_ttl_window_witness :
    normalize_database_url "pg" ≠ "" ∧
    load_active_services "pg" 0 (.ok [sampleRow]) initialCache =
      ((some [sampleRow], none), ⟨60, some [sampleRow]⟩, 1) ∧
    ((some [sampleRow], none) = ((some [sampleRow] : Option (List ServiceRow)), (none : Option String)) ∧
      (⟨60, some [sampleRow]⟩ : CacheState) = ⟨60, some [sampleRow]⟩ ∧
      (59 < 60 →
        load_active_services "pg" 59 (.error .queryFailed) ⟨60, some [sampleRow]⟩ =
          ((some [sampleRow], none), ⟨60, some [sampleRow]⟩, 0)) ∧
      (60 ≤ 59 →
        load_active_services "pg" 59 (.ok []) ⟨60, some [sampleRow]⟩ =
          ((some [], none), ⟨119, some []⟩, 1))) :=
  ⟨by decide, by decide,
    services_cache_ttl_window "pg" 0 59 (.error .queryFailed) [sampleRow] []
      initialCache ⟨60, some [sampleRow]⟩ (some [sampleRow], none) 1
      (by decide) (by decide) rfl⟩

/-- C4: with the store configured, a failing fetch attempt leaves both the
snapshot and the expiry unchanged and surfaces the fetch error itself (no
cached fallback on that path), while a still-fresh snapshot is served without
attempting any fetch. -/
theorem services_cache_failure_preserves_state
    (db : String) (t : Nat) (st : CacheState) (e : FetchErr)
    (d : List ServiceRow) (hdb : normalize_database_url db ≠ "") :
    (¬ (st.cache_data.isSome ∧ t < st.cache_until) →
      load_active_services db t (.error e) st =
        ((none, some (fetchErrCode e)), st, 1)) ∧
    (st.cache_data = some d → t < st.cache_until →
      ∀ f, load_active_services db t f st = ((some d, none), st, 0)) :=
  ⟨fun h => load_stale_err e hdb h, fun hd ht f => load_fresh hdb hd ht f⟩

/-- Witness for C4: an expired snapshot plus a failing fetch at time 70
returns the error and keeps the state; the same state at time 50 is still
fresh and is served with no query. -/
theorem services_cache_failure_preserves_state_witness :
    normalize_database_url "pg" ≠ "" ∧
    load_active_services "pg" 70 (.error .queryFailed) ⟨60, some [sampleRow]⟩ =
      ((none, some "services_query_failed"), ⟨60, some [sampleRow]⟩, 1) ∧
    load_active_services "pg" 50 (.error .queryFailed) ⟨60, some [sampleRow]⟩ =
      ((some [sampleRow], none), ⟨60, some [sampleRow]⟩, 0) :=
  ⟨by decide,
    (services_cache_failure_preserves_state "pg" 70 ⟨60, some [sampleRow]⟩
      .queryFailed [sampleRow] (by decide)).1 (by decide),
    (services_cache_failure_preserves_state "pg" 50 ⟨60, some [sampleRow]⟩
      .queryFailed [sampleRow] (by decide)).2 rfl (by decide)
      (.error .queryFailed)⟩

/-- Witness for C10: even with a fresh snapshot cached, an absent connection
string short-circuits to `database_not_configured` with no query. -/
theorem load_active_services_not_configured_bypasses_cache_witness :
    normalize_database_url "" = "" ∧
    load_active_services "" 50 (.ok []) ⟨100, some [sampleRow]⟩ =
      ((none, some "database_not_configured"), ⟨100, some [sampleRow]⟩, 0) :=
  ⟨by decide,
    load_active_services_not_configured_bypasses_cache "" 50 (.ok [])
      ⟨100, some [sampleRow]⟩ (by decide)⟩

/-- C9: on `POST /api/request` the configuration check precedes every body
guard: a blank bot credential or an empty recipient list yields HTTP 500
`server_not_configured` for every declared length, body and delivery
outcome. -/
theorem do_POST_not_configured
    (bot admins : String) (cl : Option Int) (body : BodyParse)
    (sends : List SendOutcome)
    (h : pyStrip bot = "" ∨ parse_admin_ids admins = []) :
    do_POST bot admins cl body sends =
      some ⟨500, false, some "server_not_configured", none, none⟩ := by
  simp only [do_POST]
  rw [if_pos h]

/-- Witness for C9: a whitespace-only bot token forces
`server_not_configured` even for an oversized, malformed body. -/
theorem do_POST_not_configured_witness :
    (pyStrip "  " = "" ∨ parse_admin_ids "A,B" = []) ∧
    do_POST "  " "A,B" (some 30000) .malformed [] =
      some ⟨500, false, some "server_not_configured", none, none⟩ :=
  ⟨by decide,
    do_POST_not_configured "  " "A,B" (some 30000) .malformed [] (by decide)⟩

/-- Supporting result for the body guards: with the server configured, a
declared length that is zero, absent or over 20,000 bytes is rejected with
`invalid_body_size` regardless of the body (the body is not yet decoded
there); within bounds, a body that decodes but fails `json.loads` is
rejected with `invalid_json` and a parsed non-object with `invalid_payload`;
each such rejection is HTTP 400 with `ok = false` and that error code.  The
in-bounds undecodable-body path is settled separately: it crashes instead of
rejecting. -/
theorem do_POST_body_guards
    (bot admins : String) (cl : Option Int) (sends : List SendOutcome)
    (hbot : pyStrip bot ≠ "") (hadm : parse_admin_ids admins ≠ []) :
    ((cl.getD 0 ≤ 0 ∨ cl.getD 0 > 20000) → ∀ body,
      do_POST bot admins cl body sends =
        some ⟨400, false, some "invalid_body_size", none, none⟩) ∧
    (0 < cl.getD 0 → cl.getD 0 ≤ 20000 →
      do_POST bot admins cl .malformed sends =
        some ⟨400, false, some "invalid_json", none, none⟩ ∧
      do_POST bot admins cl .nonObject sends =
        some ⟨400, false, some "invalid_payload", none, none⟩) := by
  have hcfg : ¬ (pyStrip bot = "" ∨ parse_admin_ids admins = []) := by
    rintro (h | h)
    exacts [hbot h, hadm h]
  constructor
  · intro hsz body
    simp only [do_POST]
    rw [if_neg hcfg, if_pos hsz]
  · intro h1 h2
    have hsz : ¬ (cl.getD 0 ≤ 0 ∨ cl.getD 0 > 20000) := by omega
    constructor <;>
      · simp only [do_POST]
        rw [if_neg hcfg, if_neg hsz]

/-- Concrete instances of the body guards: absent and oversized lengths give
`invalid_body_size` (the oversized one even for undecodable bytes); an
in-bounds malformed body gives `invalid_json`; an in-bounds non-object body
gives `invalid_payload`. -/
theorem do_POST_body_guards_witness :
    pyStrip "t" ≠ "" ∧ parse_admin_ids "A" ≠ [] ∧
    do_POST "t" "A" none .malformed [] =
      some ⟨400, false, some "invalid_body_size", none, none⟩ ∧
    do_POST "t" "A" (some 0) .nonObject [] =
      some ⟨400, false, some "invalid_body_size", none, none⟩ ∧
    do_POST "t" "A" (some 20001) .undecodable [] =
      some ⟨400, false, some "invalid_body_size", none, none⟩ ∧
    do_POST "t" "A" (some 10) .malformed [] =
      some ⟨400, false, some "invalid_json", none, none⟩ ∧
    do_POST "t" "A" (some 10) .nonObject [] =
      some ⟨400, false, some "invalid_payload", none, none⟩ :=
  ⟨by decide, by decide,
    (do_POST_body_guards "t" "A" none [] (by decide) (by decide)).1
      (by decide) .malformed,
    (do_POST_body_guards "t" "A" (some 0) [] (by decide) (by decide)).1
      (by decide) .nonObject,
    (do_POST_body_guards "t" "A" (some 20001) [] (by decide) (by decide)).1
      (by decide) .undecodable,
    ((do_POST_body_guards "t" "A" (some 10) [] (by decide) (by decide)).2
      (by decide) (by decide)).1,
    ((do_POST_body_guards "t" "A" (some 10) [] (by decide) (by decide)).2
      (by decide) (by decide)).2⟩

/-- C5: evaluation at the failing input.  An in-bounds request body of
invalid UTF-8 bytes produces no HTTP response at all — the
`UnicodeDecodeError` raised inside server.py line 286 is not a
`json.JSONDecodeError`, escapes the handler, and the worker sends nothing —
refuting the claimed 400 `invalid_json` rejection for a body that does not
parse as JSON.  A body that decodes but fails `json.loads` still gets 400
`invalid_json`, and the configuration and size guards, which run before the
body is read, still answer even for undecodable bytes. -/
theorem do_POST_undecodable_crash :
    do_POST "t" "A" (some 10) .undecodable [] = none ∧
    do_POST "t" "A" (some 10) .undecodable [] ≠
      some ⟨400, false, some "invalid_json", none, none⟩ ∧
    do_POST "t" "A" (some 10) .malformed [] =
      some ⟨400, false, some "invalid_json", none, none⟩ ∧
    do_POST "  " "A" (some 10) .undecodable [] =
      some ⟨500, false, some "server_not_configured", none, none⟩ ∧
    do_POST "t" "A" (some 30000) .undecodable [] =
      some ⟨400, false, some "invalid_body_size", none, none⟩ := by
  refine ⟨by decide, by decide, by decide, by decide, by decide⟩

end Drivon
